import Mathlib

/-!
# ClaudeBench session-orchestration core: a shallow embedding

This file embeds, in Lean 4, the session orchestration and event-streaming
core of the ClaudeBench repository (the stdio sidecar): the Durable Store
operations (`src/sidecar/src/session-store.ts`), the Permission Arbiter
(the `canUseTool` callback in `src/sidecar/src/index.ts` and its duplicate
in the second sidecar), the Conversation Context Builder
(`buildConversationContext` in the second sidecar), and the relevant
client-event handlers.  JS strings are modelled as Lean `String` viewed as
their character sequence; JS `||` on possibly-absent strings is modelled
with an explicit `jsOr` over `Option String` (an absent field or the empty
string is falsy).  Timestamps (`Date.now()`) and generated ids are passed
in as explicit parameters.
-/

namespace ClaudeBench

/-- JS `a || b` on two possibly-absent strings: an absent field or an empty
string is falsy and falls through to `b`. -/
def jsOr (a b : Option String) : Option String :=
  match a with
  | some s => if s = "" then b else some s
  | none => b

/-- JS `s.startsWith(pre)`, modelled on the character sequence. -/
def jsStartsWith (s pre : String) : Bool :=
  pre.data.isPrefixOf s.data

/-! ## Data model (`session-store.ts`) -/

/-- `status` column of the `sessions` table:
`'idle' | 'running' | 'completed' | 'error'`. -/
inductive Status
  | idle
  | running
  | completed
  | error
deriving DecidableEq, Repr

/-- `behavior` column of the `permission_policies` table:
`'always_allow' | 'always_deny' | 'ask'`. -/
inductive Behavior
  | always_allow
  | always_deny
  | ask
deriving DecidableEq, Repr

/-- A `permission_policies` row.  The AUTOINCREMENT `id` is implicit in the
list position (rows are kept in insertion = rowid order). -/
structure PermissionPolicy where
  tool_name : String
  path_pattern : Option String
  behavior : Behavior
  created_at : Nat
  updated_at : Nat
deriving DecidableEq, Repr

/-- Content block of an assistant message: the code only distinguishes
`{type:'text', text}` blocks from everything else. -/
inductive ContentBlock
  | text (text : String)
  | other
deriving DecidableEq, Repr

/-- The message payloads the core branches on (`message.type` string tags):
the synthetic user-prompt record, assistant output, a tool-use record, the
terminal result (with its `subtype`), the initial system handshake carrying
the agent's own session id, and everything else. -/
inductive Msg
  | user_prompt (prompt : String)
  | assistant (content : List ContentBlock)
  | tool_use (name : String)
  | result (subtype : String)
  | system_init (session_id : Option String)
  | other
deriving DecidableEq, Repr

/-- A `sessions` row (`StoredSession` in `session-store.ts`). -/
structure StoredSession where
  id : String
  title : String
  claude_session_id : Option String
  status : Status
  cwd : Option String
  last_prompt : Option String
  created_at : Nat
  updated_at : Nat
deriving DecidableEq, Repr

/-- A `messages` row (`StoredMessage`); `data` holds the JSON payload. -/
structure StoredMessage where
  id : String
  session_id : String
  data : Msg
  created_at : Nat
deriving DecidableEq, Repr

/-- The relational store: `sessions`, `messages` and `permission_policies`
tables (each in rowid = insertion order).  The `app_settings` table is
consumed through its two derived reads (permission mode, protected paths),
which the arbiter receives as explicit parameters. -/
structure Store where
  sessions : List StoredSession
  messages : List StoredMessage
  policies : List PermissionPolicy
deriving DecidableEq, Repr

/-- `SELECT * FROM sessions WHERE id = ?`. -/
def Store.getSession (st : Store) (id : String) : Option StoredSession :=
  st.sessions.find? (fun s => s.id == id)

/-- The fields of `SessionUpdateOptions`; `none` models an omitted field. -/
structure SessionUpdate where
  title : Option String := none
  claude_session_id : Option String := none
  status : Option Status := none
  last_prompt : Option String := none
deriving DecidableEq, Repr

/-- `updateSession` skips the UPDATE when no field beyond `updated_at`
was provided. -/
def SessionUpdate.isEmpty (u : SessionUpdate) : Bool :=
  u.title == none && u.claude_session_id == none && u.status == none &&
    u.last_prompt == none

/-- Apply the provided fields of a `SessionUpdateOptions` to a row, always
refreshing `updated_at` (as the generated UPDATE does). -/
def applyUpdate (now : Nat) (u : SessionUpdate) (s : StoredSession) :
    StoredSession :=
  { s with
    title := u.title.getD s.title
    claude_session_id :=
      match u.claude_session_id with
      | some v => some v
      | none => s.claude_session_id
    status := u.status.getD s.status
    last_prompt :=
      match u.last_prompt with
      | some v => some v
      | none => s.last_prompt
    updated_at := now }

/-- `updateSession(id, updates)`: no-op when the row is missing or no
field was provided; otherwise an UPDATE of the provided fields plus
`updated_at` on the matching row. -/
def Store.updateSession (st : Store) (now : Nat) (id : String)
    (u : SessionUpdate) : Store :=
  match st.getSession id with
  | none => st
  | some _ =>
    if u.isEmpty then st
    else
      { st with
        sessions :=
          st.sessions.map (fun s => if s.id == id then applyUpdate now u s else s) }

/-- `createSession(options)`: INSERT a fresh row (`claude_session_id` and
`last_prompt` NULL, both timestamps `Date.now()`). -/
def Store.createSession (st : Store) (now : Nat) (id title : String)
    (cwd : Option String) (status : Status) : Store :=
  { st with
    sessions :=
      st.sessions ++ [⟨id, title, none, status, cwd, none, now, now⟩] }

/-- `recordMessage(sessionId, message)`: INSERT one `messages` row, then
`UPDATE sessions SET updated_at = ? WHERE id = ?`.  The generated message
id and `Date.now()` are passed in. -/
def Store.recordMessage (st : Store) (msgId : String) (now : Nat)
    (sessionId : String) (message : Msg) : Store :=
  { st with
    messages := st.messages ++ [⟨msgId, sessionId, message, now⟩]
    sessions :=
      st.sessions.map
        (fun s => if s.id == sessionId then { s with updated_at := now } else s) }

/-- `ORDER BY updated_at DESC`, as a relation on rows. -/
def updatedDesc (a b : StoredSession) : Prop :=
  b.updated_at ≤ a.updated_at

instance : DecidableRel updatedDesc :=
  fun a b => Nat.decLe b.updated_at a.updated_at

instance : IsTotal StoredSession updatedDesc :=
  ⟨fun a b => Or.symm (Nat.le_total a.updated_at b.updated_at)⟩

instance : IsTrans StoredSession updatedDesc :=
  ⟨fun _ _ _ hab hbc => Nat.le_trans hbc hab⟩

/-- `listSessions()`: `SELECT * FROM sessions ORDER BY updated_at DESC`. -/
def Store.listSessions (st : Store) : List StoredSession :=
  List.insertionSort updatedDesc st.sessions

/-- `getSessionMessages(sessionId)`: rows of that session in
`created_at` ascending order, payloads only. -/
def Store.getSessionMessages (st : Store) (sessionId : String) : List Msg :=
  ((st.messages.filter (fun r => r.session_id == sessionId)).insertionSort
      (fun a b => a.created_at ≤ b.created_at)).map (·.data)

/-- `addPermissionPolicy` normalizes the optional path with
`pathPattern || null`: an absent or empty pattern is stored as NULL. -/
def normalizePathPattern : Option String → Option String
  | some s => if s = "" then none else some s
  | none => none

/-- `addPermissionPolicy(toolName, behavior, pathPattern?)`: INSERT one
`permission_policies` row (appended, i.e. highest rowid). -/
def Store.addPermissionPolicy (st : Store) (now : Nat) (toolName : String)
    (behavior : Behavior) (pathPattern : Option String) : Store :=
  { st with
    policies :=
      st.policies ++
        [⟨toolName, normalizePathPattern pathPattern, behavior, now, now⟩] }

/-- `getPermissionPolicy(toolName, pathPattern?)`: when a truthy pattern is
given, first `SELECT ... WHERE tool_name = ? AND path_pattern = ?`; on a
hit return that row, otherwise fall back to
`SELECT ... WHERE tool_name = ? AND path_pattern IS NULL`.  Each SELECT
yields the first matching row in rowid order. -/
def getPermissionPolicy (policies : List PermissionPolicy) (toolName : String)
    (pathPattern : Option String) : Option PermissionPolicy :=
  let byPath :=
    match pathPattern with
    | some p =>
      if p = "" then none
      else
        policies.find?
          (fun r => r.tool_name == toolName && r.path_pattern == some p)
    | none => none
  match byPath with
  | some row => some row
  | none =>
    policies.find? (fun r => r.tool_name == toolName && r.path_pattern == none)

/-- The hard-coded default protected-path list
(`getDefaultProtectedPaths`). -/
def getDefaultProtectedPaths : List String :=
  ["~/.ssh", "~/.aws", "~/.gnupg", "~/.config", "/etc", "/System", "/Library"]

/-- `protectedPath.replace(/^~/, home)`: expand a leading `~` to the home
directory. -/
def expandHome (home pp : String) : String :=
  if jsStartsWith pp "~" then home ++ String.mk (pp.data.drop 1) else pp

/-- `isProtectedPath(filePath)`: true when the path starts with any
configured protected prefix after home expansion. -/
def isProtectedPath (protectedPaths : List String) (home : String)
    (filePath : String) : Bool :=
  protectedPaths.any (fun pp => jsStartsWith filePath (expandHome home pp))

/-! ## Permission Arbiter (`canUseTool` in `index.ts`) -/

/-- `'interactive' | 'auto-safe' | 'bypass'` (`PermissionMode`). -/
inductive PermissionMode
  | interactive
  | autoSafe
  | bypass
deriving DecidableEq, Repr

/-- The structured tool input, restricted to the three fields the arbiter
reads; `none` models an absent field. -/
structure ToolInput where
  file_path : Option String := none
  path : Option String := none
  command : Option String := none
deriving DecidableEq, Repr

/-- `inputObj.file_path || inputObj.path || inputObj.command`. -/
def extractFilePath (input : ToolInput) : Option String :=
  jsOr (jsOr input.file_path input.path) input.command

/-- `const safeTools = ['Read', 'Grep', 'Glob', 'Ls', 'Tree']`. -/
def safeTools : List String := ["Read", "Grep", "Glob", "Ls", "Tree"]

/-- `const dangerousTools = ['Bash', 'Edit', 'Write', 'WebFetch',
'NotebookEdit']`. -/
def dangerousTools : List String :=
  ["Bash", "Edit", "Write", "WebFetch", "NotebookEdit"]

/-- Outcome of one `canUseTool` invocation: return `{behavior:'allow'}`,
return `{behavior:'deny'}`, or defer to a human (a pending Promise whose
`permission.request` event carries the `isProtectedPath` flag in the
protected-path branch only). -/
inductive Decision
  | allow
  | deny
  | ask (isProtectedPath : Bool)
deriving DecidableEq, Repr

/-- `if (filePath && store.isProtectedPath(filePath))`: the extracted path
must be truthy and protected. -/
def protectedHit (protectedPaths : List String) (home : String) :
    Option String → Bool
  | some fp => if fp = "" then false else isProtectedPath protectedPaths home fp
  | none => false

/-- The Permission Arbiter (`canUseTool` callback), branch for branch:
1. `AskUserQuestion` always defers;
2. `bypass` mode allows unconditionally;
3. a stored policy for (tool, extracted path) allows or denies
   (an `ask` policy falls through);
4. a truthy extracted path under a protected prefix defers, flagged;
5. `auto-safe`: safe list allows, dangerous list defers, unknown allows;
   `interactive`: safe list allows, everything else defers.
The trailing `ask` default of the source is unreachable for the three
`PermissionMode` values and is folded into the mode match. -/
def canUseTool (mode : PermissionMode) (policies : List PermissionPolicy)
    (protectedPaths : List String) (home : String)
    (toolName : String) (input : ToolInput) : Decision :=
  if toolName = "AskUserQuestion" then .ask false
  else if mode = .bypass then .allow
  else
    let filePath := extractFilePath input
    let afterPolicy : Decision :=
      if protectedHit protectedPaths home filePath then .ask true
      else
        match mode with
        | .autoSafe =>
          if safeTools.contains toolName then .allow
          else if dangerousTools.contains toolName then .ask false
          else .allow
        | .interactive =>
          if safeTools.contains toolName then .allow
          else .ask false
        | .bypass => .ask false
    match getPermissionPolicy policies toolName filePath with
    | some pol =>
      if pol.behavior = .always_allow then .allow
      else if pol.behavior = .always_deny then .deny
      else afterPolicy
    | none => afterPolicy

/-! ## Wire events and the in-memory registry -/

/-- The core→client events the embedded handlers emit. -/
inductive Event
  | sessionStatus (sessionId : String) (status : Status)
  | streamUserPrompt (sessionId : String) (prompt : String)
  | streamMessage (sessionId : String) (message : Msg)
  | permissionRequest (sessionId toolUseId toolName : String)
      (input : ToolInput) (isProtectedPath : Bool)
  | runnerError (message : String)
deriving DecidableEq, Repr

/-- `SessionInfo` of the in-memory registry. -/
structure SessionInfo where
  id : String
  title : String
  claudeSessionId : Option String := none
  status : Status
  cwd : Option String := none
  createdAt : Option Nat := none
  updatedAt : Option Nat := none
deriving DecidableEq, Repr

/-- `SessionData`: the live entry.  The `AbortController` is tracked by
its observable `aborted` flag; the pending-permission resolver map by its
key set (in insertion order). -/
structure SessionData where
  info : SessionInfo
  messages : List Msg
  aborted : Bool
  pendingPermissions : List String
deriving DecidableEq, Repr

/-- The shared mutable state: the module-level `sessions` map (as an
association list in insertion order) and the `store` singleton. -/
structure World where
  sessions : List (String × SessionData)
  store : Store
deriving DecidableEq, Repr

/-- `sessions.get(id)`. -/
def lookupA (l : List (String × SessionData)) (k : String) :
    Option SessionData :=
  (l.find? (fun p => p.1 == k)).map (·.2)

/-- `sessions.set(id, v)`: replace the entry when the key exists,
append otherwise. -/
def updateAssoc (l : List (String × SessionData)) (k : String)
    (v : SessionData) : List (String × SessionData) :=
  if (l.find? (fun p => p.1 == k)).isSome then
    l.map (fun p => if p.1 == k then (k, v) else p)
  else l ++ [(k, v)]

/-- One `canUseTool` invocation together with its observable effects: an
allow/deny decision resolves immediately with no event; a deferral
registers the pending resolver under the tool-use id and emits one
`permission.request` event, leaving the call unresolved (`none`). -/
def arbiterInvoke (pending : List String) (sessionId toolUseId : String)
    (mode : PermissionMode) (policies : List PermissionPolicy)
    (protectedPaths : List String) (home : String)
    (toolName : String) (input : ToolInput) :
    List String × List Event × Option Decision :=
  match canUseTool mode policies protectedPaths home toolName input with
  | .allow => (pending, [], some .allow)
  | .deny => (pending, [], some .deny)
  | .ask flag =>
    (pending ++ [toolUseId],
     [Event.permissionRequest sessionId toolUseId toolName input flag], none)

/-! ## Conversation Context Builder (`buildConversationContext`) -/

/-- The regex class `[一-鿿]` (CJK unified ideographs). -/
def isCJK (c : Char) : Bool :=
  0x4e00 ≤ c.toNat && c.toNat ≤ 0x9fff

/-- Number of characters of the string matching `[一-鿿]`. -/
def cjkCount (s : String) : Nat :=
  s.data.countP isCJK

/-- `estimateTokens`:
`Math.ceil(chineseChars / 2 + otherChars / 4)`.  Over the naturals the
ceiling of `c / 2 + o / 4 = (2c + o) / 4` is `(2c + o + 3) / 4` with
truncating division (theorem `estimateTokens_eq_ceil` below). -/
def estimateTokens (s : String) : Nat :=
  let chineseChars := cjkCount s
  let otherChars := s.data.length - chineseChars
  (2 * chineseChars + otherChars + 3) / 4

/-- A conversation turn: `{ role: 'user' | 'assistant', content }`. -/
inductive Role
  | user
  | assistant
deriving DecidableEq, Repr

structure Turn where
  role : Role
  content : String
deriving DecidableEq, Repr

/-- Turn extraction: a truthy `user_prompt` becomes a user turn; an
assistant message contributes its truthy text blocks joined with a newline
(skipped when there are none); a `tool_use` record becomes the one-line
synthetic turn naming the tool (`name || 'unknown'`); everything else is
dropped. -/
def extractTurns : List Msg → List Turn
  | [] => []
  | m :: rest =>
    let tail := extractTurns rest
    match m with
    | .user_prompt p => if p = "" then tail else ⟨.user, p⟩ :: tail
    | .assistant blocks =>
      let textParts :=
        blocks.filterMap
          (fun b =>
            match b with
            | .text t => if t = "" then none else some t
            | .other => none)
      if textParts.isEmpty then tail
      else ⟨.assistant, String.intercalate "\n" textParts⟩ :: tail
    | .tool_use name =>
      ⟨.assistant,
        "[Used tool: " ++ (if name = "" then "unknown" else name) ++ "]"⟩ :: tail
    | .result _ => tail
    | .system_init _ => tail
    | .other => tail

/-- `const MAX_CONTEXT_TOKENS = 6000`. -/
def MAX_CONTEXT_TOKENS : Nat := 6000

/-- `const MAX_SINGLE_TURN_TOKENS = 1500`. -/
def MAX_SINGLE_TURN_TOKENS : Nat := 1500

/-- Truncation of an overly long turn:
`content.slice(0, 1500 * 3) + '... [truncated]'`. -/
def truncateTurn (t : Turn) : Turn :=
  if estimateTokens t.content > MAX_SINGLE_TURN_TOKENS then
    { t with
      content :=
        String.mk (t.content.data.take (MAX_SINGLE_TURN_TOKENS * 3)) ++
          "... [truncated]" }
  else t

/-- The token count the accumulation loop charges for a turn: the raw
estimate, clamped to `MAX_SINGLE_TURN_TOKENS` when truncated (the code
sets `turnTokens = MAX_SINGLE_TURN_TOKENS` instead of re-estimating). -/
def truncTokens (t : Turn) : Nat :=
  if estimateTokens t.content > MAX_SINGLE_TURN_TOKENS then
    MAX_SINGLE_TURN_TOKENS
  else estimateTokens t.content

/-- The backward accumulation loop over the reversed turn list: stop when
the running total has reached the budget (`totalTokens < MAX` guard), add
the truncated turn when it still fits (`totalTokens + turnTokens <= MAX`),
break otherwise. -/
def selectAux : List Turn → Nat → List Turn
  | [], _ => []
  | t :: rest, total =>
    if MAX_CONTEXT_TOKENS ≤ total then []
    else if total + truncTokens t ≤ MAX_CONTEXT_TOKENS then
      truncateTurn t :: selectAux rest (total + truncTokens t)
    else []

/-- The `recentTurns` window: walk backward from the most recent turn,
re-reversed so the kept window is oldest-first with the newest turn
last (the loop `unshift`s each accepted turn). -/
def selectRecentTurns (turns : List Turn) : List Turn :=
  (selectAux turns.reverse 0).reverse

/-- One rendered turn of the context frame: `"[User]: ..."` or
`"[Assistant]: ..."` followed by a blank line. -/
def renderTurn (t : Turn) : List String :=
  [(if t.role = .user then "[User]" else "[Assistant]") ++ ": " ++ t.content,
   ""]

/-- `buildConversationContext(messages, newPrompt)`: extract turns, select
the recent window, and either return the new prompt verbatim (no window)
or wrap the window in the fixed textual frame followed by the new user
message, joined with newlines. -/
def buildConversationContext (messages : List Msg) (newPrompt : String) :
    String :=
  let recentTurns := selectRecentTurns (extractTurns messages)
  if recentTurns = [] then newPrompt
  else
    String.intercalate "\n"
      (["<conversation_history>",
        "Continue this conversation. Recent history:", ""] ++
        recentTurns.flatMap renderTurn ++
        ["</conversation_history>", "", "[User (new message)]:", newPrompt])

/-! ## Event handlers -/

/-- `handleSessionStop`: unknown id reports a runner error; otherwise
abort the live cancellation handle, set status `idle` in memory and in the
store, and emit the status event. -/
def handleSessionStop (w : World) (now : Nat) (sessionId : String) :
    World × List Event :=
  match lookupA w.sessions sessionId with
  | none => (w, [.runnerError ("Session not found: " ++ sessionId)])
  | some sd =>
    let sd := { sd with
      info := { sd.info with status := .idle, updatedAt := some now }
      aborted := true }
    ({ sessions := updateAssoc w.sessions sessionId sd
       store := w.store.updateSession now sessionId { status := some .idle } },
     [.sessionStatus sessionId .idle])

/-- The prefix of `handleSessionStart` executed before the query's message
stream is consumed: create the store row with status `running`, install
the live entry, emit `session.status` and `stream.user_prompt`, and record
the synthetic user-prompt message in memory and in the store. -/
def sessionStartSetup (w : World) (now : Nat) (sessionId msgId title
    prompt : String) (cwd : Option String) : World × List Event :=
  let store := w.store.createSession now sessionId title cwd .running
  let sd : SessionData :=
    { info :=
        { id := sessionId, title := title, claudeSessionId := none,
          status := .running, cwd := cwd, createdAt := some now,
          updatedAt := some now }
      messages := [Msg.user_prompt prompt]
      aborted := false
      pendingPermissions := [] }
  ({ sessions := updateAssoc w.sessions sessionId sd
     store := store.recordMessage msgId now sessionId (Msg.user_prompt prompt) },
   [.sessionStatus sessionId .running, .streamUserPrompt sessionId prompt])

/-- Replace the status (and `updatedAt`) of a live entry. -/
def setMemStatus (w : World) (sessionId : String) (status : Status)
    (now : Nat) : World :=
  match lookupA w.sessions sessionId with
  | none => w
  | some sd =>
    { w with
      sessions :=
        updateAssoc w.sessions sessionId
          { sd with
            info := { sd.info with status := status, updatedAt := some now } } }

/-- Append a message to a live entry's in-memory cache. -/
def pushMemMessage (w : World) (sessionId : String) (m : Msg) : World :=
  match lookupA w.sessions sessionId with
  | none => w
  | some sd =>
    { w with
      sessions :=
        updateAssoc w.sessions sessionId
          { sd with messages := sd.messages ++ [m] } }

/-- The body of `runQuery`'s `for await` loop for one streamed message:
capture the agent session id from the initial handshake (first one only,
persisted), emit `stream.message`, append to the in-memory cache and the
store, and on a terminal `result` message classify its subtype, update the
status in memory and store, and emit `session.status`.  (The asynchronous
title generation is additive only and out of this model.) -/
def processStreamMessage (w : World) (sessionId msgId : String) (tnow : Nat)
    (m : Msg) : World × List Event :=
  let w :=
    match m with
    | .system_init (some sdkId) =>
      (match lookupA w.sessions sessionId with
       | some sd =>
         if sd.info.claudeSessionId = none then
           { sessions :=
               updateAssoc w.sessions sessionId
                 { sd with
                   info := { sd.info with claudeSessionId := some sdkId } }
             store :=
               w.store.updateSession tnow sessionId
                 { claude_session_id := some sdkId } }
         else w
       | none => w)
    | _ => w
  let w := pushMemMessage w sessionId m
  let w := { w with store := w.store.recordMessage msgId tnow sessionId m }
  match m with
  | .result subtype =>
    let status := if subtype = "success" then Status.completed else .error
    let w := setMemStatus w sessionId status tnow
    let w := { w with store := w.store.updateSession tnow sessionId { status := some status } }
    (w, [.streamMessage sessionId m, .sessionStatus sessionId status])
  | _ => (w, [.streamMessage sessionId m])

/-- How the external message stream terminates: the iteration ends
normally, or it throws (how the SDK surfaces an abort, among others). -/
inductive StreamTerminal
  | ends
  | throws (message : String)
deriving DecidableEq, Repr

/-- The remainder of `runQuery`: consume the streamed messages one by one
(each with its generated message id and timestamp), then either finish or,
on a thrown error, mark the session `error` in memory and in the store and
emit `session.status` plus `runner.error` — the catch block does not
distinguish an abort from any other thrown error. -/
def runQueryConsume (w : World) (sessionId : String)
    (stream : List (Msg × String × Nat)) (terminal : StreamTerminal)
    (now : Nat) : World × List Event :=
  match stream with
  | (m, msgId, tnow) :: rest =>
    let (w, evs) := processStreamMessage w sessionId msgId tnow m
    let (w, evs2) := runQueryConsume w sessionId rest terminal now
    (w, evs ++ evs2)
  | [] =>
    match terminal with
    | .ends => (w, [])
    | .throws message =>
      let w := setMemStatus w sessionId .error now
      let w :=
        { w with
          store := w.store.updateSession now sessionId { status := some .error } }
      (w, [.sessionStatus sessionId .error, .runnerError message])

/-- The `session.stop`-immediately-after-`session.start` interleaving on a
fresh world: the start handler runs up to its first stream suspension, the
stop handler aborts and sets `idle`, and then the (aborted) stream yields
no further messages and terminates as `terminal` says. -/
def startStopScenario (terminal : StreamTerminal) : World × List Event :=
  let w0 : World := { sessions := [], store := ⟨[], [], []⟩ }
  let (w1, e1) := sessionStartSetup w0 1 "s1" "m1" "t" "hello" (some "/tmp")
  let (w2, e2) := handleSessionStop w1 2 "s1"
  let (w3, e3) := runQueryConsume w2 "s1" [] terminal 3
  (w3, e1 ++ e2 ++ e3)

/-- Status of a live entry, for stating observations. -/
def memStatus (w : World) (sessionId : String) : Option Status :=
  (lookupA w.sessions sessionId).map (·.info.status)

/-- `handleSessionContinue` (context-rebuilding variant): rehydrate from
the store when not live (full message log replayed), report `runner.error`
when the id is unknown to both; otherwise mark `running` (fresh
cancellation handle), persist `{status, last_prompt}`, emit the status and
user-prompt events, record the prompt message, and build the effective
prompt from the history excluding the just-appended prompt.  The returned
`Option String` is the conversation prompt handed to the agent invocation
(`none` when no query is started). -/
def handleSessionContinue (w : World) (now : Nat) (msgId : String)
    (sessionId prompt : String) : World × List Event × Option String :=
  let loaded : Option SessionData :=
    match lookupA w.sessions sessionId with
    | some sd => some sd
    | none =>
      match w.store.getSession sessionId with
      | none => none
      | some stored =>
        some
          { info :=
              { id := stored.id, title := stored.title,
                claudeSessionId := stored.claude_session_id,
                status := stored.status, cwd := stored.cwd,
                createdAt := some stored.created_at,
                updatedAt := some stored.updated_at }
            messages := w.store.getSessionMessages sessionId
            aborted := false
            pendingPermissions := [] }
  match loaded with
  | none => (w, [.runnerError ("Session not found: " ++ sessionId)], none)
  | some sd =>
    let sd :=
      { sd with
        info := { sd.info with status := .running, updatedAt := some now }
        aborted := false
        messages := sd.messages ++ [Msg.user_prompt prompt] }
    let store :=
      (w.store.updateSession now sessionId
          { status := some .running, last_prompt := some prompt }).recordMessage
        msgId now sessionId (Msg.user_prompt prompt)
    let history := sd.messages.dropLast
    ({ sessions := updateAssoc w.sessions sessionId sd, store := store },
     [.sessionStatus sessionId .running, .streamUserPrompt sessionId prompt],
     some (buildConversationContext history prompt))

/-- The path the remember branch of `handlePermissionResponse` persists:
`input?.file_path || input?.path` — the `command` field is not
consulted. -/
def rememberPathPattern (input : Option ToolInput) : Option String :=
  match input with
  | none => none
  | some i => jsOr i.file_path i.path

/-- The result object a `permission.response` forwards to the pending
resolver. -/
structure PermissionResult where
  behavior : String
deriving DecidableEq, Repr

/-- `handlePermissionResponse`: an unknown session id returns silently;
otherwise, when `remember && rememberBehavior`, persist a policy for
(toolName, `file_path || path`) first, then resolve and delete the pending
resolver when one is registered under the tool-use id.  The middle
component reports which resolver (if any) was invoked and with what
result. -/
def handlePermissionResponse (w : World) (now : Nat)
    (sessionId toolUseId : String) (result : PermissionResult)
    (remember : Bool) (rememberBehavior : Option Behavior)
    (toolName : String) (input : Option ToolInput) :
    World × Option (String × PermissionResult) × List Event :=
  match lookupA w.sessions sessionId with
  | none => (w, none, [])
  | some sd =>
    let w :=
      match remember, rememberBehavior with
      | true, some b =>
        { w with
          store :=
            w.store.addPermissionPolicy now toolName b
              (rememberPathPattern input) }
      | _, _ => w
    if sd.pendingPermissions.contains toolUseId then
      ({ w with
         sessions :=
           updateAssoc w.sessions sessionId
             { sd with
               pendingPermissions :=
                 sd.pendingPermissions.filter (fun k => !(k == toolUseId)) } },
       some (toolUseId, result), [])
    else (w, none, [])

/-! ## Theorems -/

/-- C5: for every invocation of the tool-approval callback with tool name
`AskUserQuestion`, the Permission Arbiter defers to a human — it registers
a pending resolver keyed by the tool-use id and emits one
`permission.request` event (unflagged) — for every permission mode
including `bypass` and for every stored policy list; the call resolves to
no immediate decision. -/
theorem askUserQuestion_always_defers (pending : List String)
    (sessionId toolUseId : String) (mode : PermissionMode)
    (policies : List PermissionPolicy) (protectedPaths : List String)
    (home : String) (input : ToolInput) :
    arbiterInvoke pending sessionId toolUseId mode policies protectedPaths
        home "AskUserQuestion" input =
      (pending ++ [toolUseId],
       [Event.permissionRequest sessionId toolUseId "AskUserQuestion" input
          false],
       none) := by
  simp [arbiterInvoke, canUseTool]

/-- C2: in a non-bypass mode, for a tool that reaches the stored-policy
lookup, the lookup returns the single path-scoped row for the (tool,
resolved path) pair — taking precedence over any tool-only row — and when
that row is an `always_deny` policy the request is denied even though a
tool-only `always_allow` policy for the same tool exists. -/
theorem pathPolicy_precedence (mode : PermissionMode)
    (policies : List PermissionPolicy) (protectedPaths : List String)
    (home toolName : String) (input : ToolInput) (p : String)
    (pd pa : PermissionPolicy)
    (hmode : mode ≠ .bypass) (htool : toolName ≠ "AskUserQuestion")
    (hfp : extractFilePath input = some p) (hp : p ≠ "")
    (hfind : policies.find?
        (fun r => r.tool_name == toolName && r.path_pattern == some p) =
      some pd)
    (hpd : pd.behavior = .always_deny)
    (hpa : pa ∈ policies) (hpa1 : pa.tool_name = toolName)
    (hpa2 : pa.path_pattern = none) (hpa3 : pa.behavior = .always_allow) :
    getPermissionPolicy policies toolName (extractFilePath input) = some pd ∧
    canUseTool mode policies protectedPaths home toolName input = .deny := by
  have hg : getPermissionPolicy policies toolName (extractFilePath input) =
      some pd := by
    rw [hfp]
    simp [getPermissionPolicy, hp, hfind]
  refine ⟨hg, ?_⟩
  simp only [canUseTool, if_neg htool, if_neg hmode, hg, hpd]
  simp

/-- C2 witness: a concrete path-scoped `always_deny` row together with a
tool-only `always_allow` row for `Bash`; the request with that exact
command is denied in `interactive` mode. -/
theorem pathPolicy_precedence_witness :
    ((PermissionMode.interactive ≠ PermissionMode.bypass) ∧
      ("Bash" ≠ "AskUserQuestion") ∧
      extractFilePath { command := some "rm -rf /tmp/x" } =
        some "rm -rf /tmp/x") ∧
    getPermissionPolicy
        [⟨"Bash", some "rm -rf /tmp/x", .always_deny, 0, 0⟩,
         ⟨"Bash", none, .always_allow, 0, 0⟩] "Bash"
        (extractFilePath { command := some "rm -rf /tmp/x" }) =
      some ⟨"Bash", some "rm -rf /tmp/x", .always_deny, 0, 0⟩ ∧
    canUseTool .interactive
        [⟨"Bash", some "rm -rf /tmp/x", .always_deny, 0, 0⟩,
         ⟨"Bash", none, .always_allow, 0, 0⟩]
        getDefaultProtectedPaths "/home/u" "Bash"
        { command := some "rm -rf /tmp/x" } = .deny :=
  ⟨⟨by decide, by decide, by decide⟩,
    (pathPolicy_precedence .interactive
      [⟨"Bash", some "rm -rf /tmp/x", .always_deny, 0, 0⟩,
       ⟨"Bash", none, .always_allow, 0, 0⟩]
      getDefaultProtectedPaths "/home/u" "Bash"
      { command := some "rm -rf /tmp/x" } "rm -rf /tmp/x"
      ⟨"Bash", some "rm -rf /tmp/x", .always_deny, 0, 0⟩
      ⟨"Bash", none, .always_allow, 0, 0⟩
      (by decide) (by decide) (by decide) (by decide) (by decide) (by decide)
      (by decide) (by decide) (by decide) (by decide)).1,
    (pathPolicy_precedence .interactive
      [⟨"Bash", some "rm -rf /tmp/x", .always_deny, 0, 0⟩,
       ⟨"Bash", none, .always_allow, 0, 0⟩]
      getDefaultProtectedPaths "/home/u" "Bash"
      { command := some "rm -rf /tmp/x" } "rm -rf /tmp/x"
      ⟨"Bash", some "rm -rf /tmp/x", .always_deny, 0, 0⟩
      ⟨"Bash", none, .always_allow, 0, 0⟩
      (by decide) (by decide) (by decide) (by decide) (by decide) (by decide)
      (by decide) (by decide) (by decide) (by decide)).2⟩

/-- C9 counterexample: a `permission.response` for a session id unknown to
the in-memory registry returns with the world unchanged, no resolver
invoked, and an empty event list — in particular no `runner.error` event
is emitted, contrary to the claim that the core reports a runner error. -/
theorem unknownSession_permissionResponse_counterexample :
    handlePermissionResponse ⟨[], ⟨[], [], []⟩⟩ 1 "ghost" "tu1" ⟨"deny"⟩
        true (some .always_deny) "Bash" none =
      (⟨[], ⟨[], [], []⟩⟩, none, ([] : List Event)) := by
  rfl

/-- C9 (amended): a `permission.response` referencing a session id unknown
to the in-memory registry is silently ignored: the handler returns with the
world unchanged (no policy persisted), invokes no pending resolver, and
emits no event at all (so also no runner error). -/
theorem unknownSession_permissionResponse_noop (w : World) (now : Nat)
    (sessionId toolUseId : String) (result : PermissionResult)
    (remember : Bool) (rememberBehavior : Option Behavior)
    (toolName : String) (input : Option ToolInput)
    (hmem : lookupA w.sessions sessionId = none) :
    handlePermissionResponse w now sessionId toolUseId result remember
        rememberBehavior toolName input = (w, none, []) := by
  simp [handlePermissionResponse, hmem]

/-- C9 witness: the amended no-op statement at a concrete world whose
registry does not know the session id. -/
theorem unknownSession_permissionResponse_noop_witness :
    lookupA ([("s1",
        { info := { id := "s1", title := "t", status := Status.idle },
          messages := [], aborted := false, pendingPermissions := [] })])
        "ghost" = none ∧
    handlePermissionResponse
        ⟨[("s1",
           { info := { id := "s1", title := "t", status := Status.idle },
             messages := [], aborted := false, pendingPermissions := [] })],
          ⟨[], [], []⟩⟩ 7 "ghost" "tu9" ⟨"allow"⟩ true (some .always_allow)
        "Edit" (some { file_path := some "/tmp/f" }) =
      (⟨[("s1",
          { info := { id := "s1", title := "t", status := Status.idle },
            messages := [], aborted := false, pendingPermissions := [] })],
         ⟨[], [], []⟩⟩, none, []) :=
  ⟨by decide,
    unknownSession_permissionResponse_noop
      ⟨[("s1",
         { info := { id := "s1", title := "t", status := Status.idle },
           messages := [], aborted := false, pendingPermissions := [] })],
        ⟨[], [], []⟩⟩ 7 "ghost" "tu9" ⟨"allow"⟩ true (some .always_allow)
      "Edit" (some { file_path := some "/tmp/f" }) (by decide)⟩

/-- C8: a `session.continue` whose session id is unknown to both the
in-memory registry and the store emits exactly one `runner.error` event
whose message contains "not found", starts no query, and leaves the whole
world (sessions table, messages table, registry) unchanged. -/
theorem unknown_continue_reports_not_found (w : World) (now : Nat)
    (msgId sessionId prompt : String)
    (hmem : lookupA w.sessions sessionId = none)
    (hstore : w.store.getSession sessionId = none) :
    handleSessionContinue w now msgId sessionId prompt =
      (w, [.runnerError ("Session not found: " ++ sessionId)], none) ∧
    ∃ pre post,
      "Session not found: " ++ sessionId = pre ++ ("not found" ++ post) := by
  constructor
  · simp [handleSessionContinue, hmem, hstore]
  · refine ⟨"Session ", ": " ++ sessionId, ?_⟩
    rw [← String.append_assoc, ← String.append_assoc]
    rfl

/-- C8 witness: the not-found behavior at a concrete empty world and the
session id "does-not-exist". -/
theorem unknown_continue_reports_not_found_witness :
    lookupA ([] : List (String × SessionData)) "does-not-exist" = none ∧
    Store.getSession ⟨[], [], []⟩ "does-not-exist" = none ∧
    handleSessionContinue ⟨[], ⟨[], [], []⟩⟩ 1 "m1" "does-not-exist" "x" =
      (⟨[], ⟨[], [], []⟩⟩,
       [.runnerError ("Session not found: " ++ "does-not-exist")], none) :=
  ⟨rfl, rfl,
    (unknown_continue_reports_not_found ⟨[], ⟨[], [], []⟩⟩ 1 "m1"
      "does-not-exist" "x" rfl rfl).1⟩

/-- Normalizing the remember-time pattern and the lookup-time pattern
agree whenever the tool input has no `command` field: dropping the trailing
`|| input.command` of the lookup chain changes nothing then. -/
theorem normalize_jsOr_none (x : Option String) :
    normalizePathPattern (jsOr x none) = normalizePathPattern x := by
  cases x with
  | none => rfl
  | some s =>
    by_cases hs : s = "" <;> simp [jsOr, normalizePathPattern, hs]

/-- C3 counterexample: for a `Bash` request whose resolved path is
extracted from the `command` field, the Permission Arbiter's lookup is
scoped to the command string, but the policy persisted by a remembered
`permission.response` is stored with a NULL path pattern — a different
(tool-only) granularity. -/
theorem remember_scope_counterexample :
    extractFilePath { command := some "ls /tmp" } = some "ls /tmp" ∧
    ((handlePermissionResponse
        ⟨[("s1",
           { info := { id := "s1", title := "t", status := Status.running },
             messages := [], aborted := false,
             pendingPermissions := ["tu1"] })], ⟨[], [], []⟩⟩
        5 "s1" "tu1" ⟨"deny"⟩ true (some .always_deny) "Bash"
        (some { command := some "ls /tmp" })).1.store.policies.map
      (·.path_pattern)) = [none] ∧
    (some "ls /tmp" : Option String) ≠ (none : Option String) := by
  refine ⟨rfl, rfl, by decide⟩

/-- C3 (amended): a remembered decision persists exactly one new policy,
scoped to (tool, `file_path || path`): the same granularity the Arbiter
used in lookup whenever the resolved path came from `file_path` or `path`,
but tool-only (NULL pattern) for a tool whose resolved path came from the
`command` field, since the remember branch does not consult `command`. -/
theorem remember_policy_scope (w : World) (now : Nat)
    (sessionId toolUseId : String) (result : PermissionResult)
    (b : Behavior) (toolName : String) (input : Option ToolInput)
    (sd : SessionData) (hmem : lookupA w.sessions sessionId = some sd) :
    (handlePermissionResponse w now sessionId toolUseId result true (some b)
        toolName input).1.store.policies =
      w.store.policies ++
        [⟨toolName, normalizePathPattern (rememberPathPattern input), b, now,
          now⟩] ∧
    (∀ i, input = some i → i.command = none →
      normalizePathPattern (rememberPathPattern input) =
        normalizePathPattern (extractFilePath i)) := by
  constructor
  · simp only [handlePermissionResponse, hmem]
    split <;> rfl
  · rintro i rfl hcmd
    simp [rememberPathPattern, extractFilePath, hcmd, normalize_jsOr_none]

/-- C3 witness: for an `Edit` request whose resolved path came from
`file_path`, the remembered policy is scoped to that same path. -/
theorem remember_policy_scope_witness :
    lookupA ([("s2",
        { info := { id := "s2", title := "t", status := Status.running },
          messages := [], aborted := false,
          pendingPermissions := ["tu2"] })]) "s2" =
      some { info := { id := "s2", title := "t", status := Status.running },
             messages := [], aborted := false,
             pendingPermissions := ["tu2"] } ∧
    ((handlePermissionResponse
        ⟨[("s2",
           { info := { id := "s2", title := "t", status := Status.running },
             messages := [], aborted := false,
             pendingPermissions := ["tu2"] })], ⟨[], [], []⟩⟩
        9 "s2" "tu2" ⟨"allow"⟩ true (some .always_allow) "Edit"
        (some { file_path := some "/a/b" })).1.store.policies =
      [] ++ [⟨"Edit",
        normalizePathPattern
          (rememberPathPattern (some { file_path := some "/a/b" })),
        .always_allow, 9, 9⟩] ∧
    (∀ i, (some { file_path := some "/a/b" } : Option ToolInput) = some i →
      i.command = none →
      normalizePathPattern
          (rememberPathPattern (some { file_path := some "/a/b" })) =
        normalizePathPattern (extractFilePath i))) :=
  ⟨by decide,
    remember_policy_scope
      ⟨[("s2",
         { info := { id := "s2", title := "t", status := Status.running },
           messages := [], aborted := false,
           pendingPermissions := ["tu2"] })], ⟨[], [], []⟩⟩
      9 "s2" "tu2" ⟨"allow"⟩ .always_allow "Edit"
      (some { file_path := some "/a/b" })
      { info := { id := "s2", title := "t", status := Status.running },
        messages := [], aborted := false, pendingPermissions := ["tu2"] }
      (by decide)⟩

/-- C1 counterexample: a `Write` to `/etc/hosts`, a path under the
configured protected prefix `/etc`, is auto-approved — not deferred —
both in `bypass` mode (with no policies at all) and in `interactive` mode
when a stored path-scoped `always_allow` policy matches, because the
bypass and stored-policy branches run before the protected-path check. -/
theorem protectedPath_override_counterexample :
    isProtectedPath getDefaultProtectedPaths "/home/u" "/etc/hosts" = true ∧
    canUseTool .bypass [] getDefaultProtectedPaths "/home/u" "Write"
        { file_path := some "/etc/hosts" } = .allow ∧
    canUseTool .interactive
        [⟨"Write", some "/etc/hosts", .always_allow, 0, 0⟩]
        getDefaultProtectedPaths "/home/u" "Write"
        { file_path := some "/etc/hosts" } = .allow := by
  refine ⟨by decide, by decide, by decide⟩

/-- C1 (amended): in every non-bypass mode, for a tool other than
`AskUserQuestion` whose stored-policy lookup yields no `always_allow` or
`always_deny` row, a resolved path under a configured protected prefix
makes the Permission Arbiter defer to a human: it registers a pending
resolver under the tool-use id and emits one `permission.request` event
flagged `isProtectedPath`, overriding the mode's auto-approval. -/
theorem protectedPath_defers_nonbypass (mode : PermissionMode)
    (policies : List PermissionPolicy) (protectedPaths : List String)
    (home toolName : String) (input : ToolInput) (fp : String)
    (pending : List String) (sessionId toolUseId : String)
    (hmode : mode ≠ .bypass) (htool : toolName ≠ "AskUserQuestion")
    (hfp : extractFilePath input = some fp) (hne : fp ≠ "")
    (hprot : isProtectedPath protectedPaths home fp = true)
    (hpol : getPermissionPolicy policies toolName (extractFilePath input) =
        none ∨
      ∃ pol, getPermissionPolicy policies toolName (extractFilePath input) =
          some pol ∧ pol.behavior = .ask) :
    canUseTool mode policies protectedPaths home toolName input = .ask true ∧
    arbiterInvoke pending sessionId toolUseId mode policies protectedPaths
        home toolName input =
      (pending ++ [toolUseId],
       [Event.permissionRequest sessionId toolUseId toolName input true],
       none) := by
  have hhit : protectedHit protectedPaths home (extractFilePath input) =
      true := by
    rw [hfp]
    simp [protectedHit, hne, hprot]
  have hmain : canUseTool mode policies protectedPaths home toolName input =
      .ask true := by
    rcases hpol with hnone | ⟨pol, hsome, hask⟩
    · simp [canUseTool, htool, hmode, hnone, hhit]
    · simp [canUseTool, htool, hmode, hsome, hask, hhit]
  exact ⟨hmain, by simp [arbiterInvoke, hmain]⟩

/-- C1 witness: in `interactive` mode with no stored policies, a `Write`
to `/etc/hosts` defers with the protected-path flag set. -/
theorem protectedPath_defers_nonbypass_witness :
    ((PermissionMode.interactive ≠ PermissionMode.bypass) ∧
      ("Write" ≠ "AskUserQuestion") ∧
      extractFilePath { file_path := some "/etc/hosts" } =
        some "/etc/hosts" ∧
      isProtectedPath getDefaultProtectedPaths "/home/u" "/etc/hosts" =
        true) ∧
    canUseTool .interactive [] getDefaultProtectedPaths "/home/u" "Write"
        { file_path := some "/etc/hosts" } = .ask true ∧
    arbiterInvoke [] "s1" "tu1" .interactive [] getDefaultProtectedPaths
        "/home/u" "Write" { file_path := some "/etc/hosts" } =
      ([] ++ ["tu1"],
       [Event.permissionRequest "s1" "tu1" "Write"
          { file_path := some "/etc/hosts" } true],
       none) :=
  ⟨⟨by decide, by decide, by decide, by decide⟩,
    (protectedPath_defers_nonbypass .interactive [] getDefaultProtectedPaths
      "/home/u" "Write" { file_path := some "/etc/hosts" } "/etc/hosts"
      [] "s1" "tu1" (by decide) (by decide) (by decide) (by decide)
      (by decide) (Or.inl (by decide))).1,
    (protectedPath_defers_nonbypass .interactive [] getDefaultProtectedPaths
      "/home/u" "Write" { file_path := some "/etc/hosts" } "/etc/hosts"
      [] "s1" "tu1" (by decide) (by decide) (by decide) (by decide)
      (by decide) (Or.inl (by decide))).2⟩

/-- C4: on the stop-immediately-after-start interleaving, when the aborted
stream terminates by throwing (as an abort surfaces), `runQuery`'s catch
block overwrites the `idle` status set by `session.stop` with `error`
in memory and in the store and emits `session.status error` plus
`runner.error` — while a stream that ends without throwing leaves the
status `idle`.  In neither case is any further `stream.message` emitted. -/
theorem stop_then_abort_throw_sets_error :
    memStatus (startStopScenario (.throws "This operation was aborted")).1
        "s1" = some .error ∧
    ((startStopScenario (.throws "This operation was aborted")).1.store.getSession
        "s1").map (·.status) = some .error ∧
    (startStopScenario (.throws "This operation was aborted")).2 =
      [.sessionStatus "s1" .running, .streamUserPrompt "s1" "hello",
       .sessionStatus "s1" .idle, .sessionStatus "s1" .error,
       .runnerError "This operation was aborted"] ∧
    memStatus (startStopScenario .ends).1 "s1" = some .idle ∧
    ((startStopScenario .ends).1.store.getSession "s1").map (·.status) =
      some .idle := by
  refine ⟨by decide, by decide, by decide, by decide, by decide⟩

/-- The ceiling of `m / 4` over the rationals is `(m + 3) / 4` with
truncating natural division. -/
theorem ceil_natCast_div_four (m : Nat) :
    ⌈(m : ℚ) / 4⌉ = (((m + 3) / 4 : ℕ) : ℤ) := by
  have h : 4 * ((m + 3) / 4) + (m + 3) % 4 = m + 3 := Nat.div_add_mod (m + 3) 4
  have hm : (m + 3) % 4 < 4 := Nat.mod_lt _ (by norm_num)
  set q : ℕ := (m + 3) / 4 with hqdef
  set r : ℕ := (m + 3) % 4 with hrdef
  have hq : (4 * q + r : ℚ) = (m : ℚ) + 3 := by exact_mod_cast h
  have hr0 : (0 : ℚ) ≤ (r : ℚ) := by positivity
  have hr3 : (r : ℚ) ≤ 3 := by exact_mod_cast Nat.lt_succ_iff.mp hm
  have hcast : (((q : ℕ) : ℤ) : ℚ) = (q : ℚ) := by norm_cast
  rw [Int.ceil_eq_iff]
  constructor
  · rw [hcast, lt_div_iff (by norm_num : (0 : ℚ) < 4)]
    linarith
  · rw [hcast, div_le_iff (by norm_num : (0 : ℚ) < 4)]
    linarith

/-- C7: for every string, the token estimator returns the ceiling of
`c / 2 + (n - c) / 4`, where `n` is the length in characters and `c` the
number of characters in the CJK ideograph range — CJK characters weigh
1 token per 2 characters, all others 1 token per 4. -/
theorem estimateTokens_eq_ceil (s : String) :
    (estimateTokens s : ℤ) =
      ⌈(cjkCount s : ℚ) / 2 +
        ((s.data.length - cjkCount s : ℕ) : ℚ) / 4⌉ := by
  have heq : (cjkCount s : ℚ) / 2 +
      ((s.data.length - cjkCount s : ℕ) : ℚ) / 4 =
      ((2 * cjkCount s + (s.data.length - cjkCount s) : ℕ) : ℚ) / 4 := by
    push_cast
    ring
  rw [heq, ceil_natCast_div_four]
  simp [estimateTokens]

/-- Counting a predicate that fails on the repeated element gives zero. -/
theorem countP_replicate_false {p : Char → Bool} {c : Char}
    (h : p c = false) : ∀ n, (List.replicate n c).countP p = 0 := by
  intro n
  induction n with
  | zero => rfl
  | succ k ih => simp [List.replicate_succ, List.countP_cons, h, ih]

/-- The token estimate of a run of `n` ASCII letters is `(n + 3) / 4`. -/
theorem estimateTokens_replicate_a (n : Nat) :
    estimateTokens (String.mk (List.replicate n 'a')) = (n + 3) / 4 := by
  have hcjk : isCJK 'a' = false := by decide
  simp [estimateTokens, cjkCount, countP_replicate_false hcjk]

/-- Turn extraction on a run of identical non-empty user prompts. -/
theorem extractTurns_replicate_user (p : String) (hp : ¬p = "") :
    ∀ n, extractTurns (List.replicate n (Msg.user_prompt p)) =
      List.replicate n ⟨Role.user, p⟩ := by
  intro n
  induction n with
  | zero => rfl
  | succ k ih => simp [List.replicate_succ, extractTurns, hp, ih]

/-- A turn whose raw estimate reaches the per-turn cap is charged exactly
the cap by the accumulation loop. -/
theorem truncTokens_of_ge (t : Turn)
    (h : MAX_SINGLE_TURN_TOKENS ≤ estimateTokens t.content) :
    truncTokens t = MAX_SINGLE_TURN_TOKENS := by
  unfold truncTokens
  split
  · rfl
  · next hnot =>
    have : estimateTokens t.content ≤ MAX_SINGLE_TURN_TOKENS :=
      Nat.le_of_not_lt hnot
    omega

/-- Four cap-weight turns fill the 6000-token budget exactly, and the
loop stops there regardless of what older turns remain. -/
theorem selectAux_four (t1 t2 t3 t4 : Turn) (rest : List Turn)
    (h1 : truncTokens t1 = 1500) (h2 : truncTokens t2 = 1500)
    (h3 : truncTokens t3 = 1500) (h4 : truncTokens t4 = 1500) :
    selectAux (t1 :: t2 :: t3 :: t4 :: rest) 0 =
      [truncateTurn t1, truncateTurn t2, truncateTurn t3, truncateTurn t4] := by
  have e1 : selectAux (t1 :: t2 :: t3 :: t4 :: rest) 0 =
      truncateTurn t1 :: selectAux (t2 :: t3 :: t4 :: rest) 1500 := by
    rw [selectAux, h1]
    norm_num [MAX_CONTEXT_TOKENS]
  have e2 : selectAux (t2 :: t3 :: t4 :: rest) 1500 =
      truncateTurn t2 :: selectAux (t3 :: t4 :: rest) 3000 := by
    rw [selectAux, h2]
    norm_num [MAX_CONTEXT_TOKENS]
  have e3 : selectAux (t3 :: t4 :: rest) 3000 =
      truncateTurn t3 :: selectAux (t4 :: rest) 4500 := by
    rw [selectAux, h3]
    norm_num [MAX_CONTEXT_TOKENS]
  have e4 : selectAux (t4 :: rest) 4500 =
      truncateTurn t4 :: selectAux rest 6000 := by
    rw [selectAux, h4]
    norm_num [MAX_CONTEXT_TOKENS]
  have e5 : selectAux rest 6000 = [] := by
    cases rest with
    | nil => rfl
    | cons t ts =>
      rw [selectAux]
      norm_num [MAX_CONTEXT_TOKENS]
  rw [e1, e2, e3, e4, e5]

/-- C6 counterexample: for a history of 50 turns of 8000 plain characters
each — estimated at 2000 token-equivalents per turn, budget 6000 — the
builder's window contains 4 of the most recent turns, not at most 3: each
turn is first truncated to the 1500-token per-turn cap, and four capped
turns fit the budget exactly. -/
theorem contextBudget_counterexample :
    estimateTokens (String.mk (List.replicate 8000 'a')) = 2000 ∧
    (selectRecentTurns (extractTurns (List.replicate 50
        (Msg.user_prompt (String.mk (List.replicate 8000 'a')))))).length =
      4 ∧
    ¬(selectRecentTurns (extractTurns (List.replicate 50
        (Msg.user_prompt (String.mk (List.replicate 8000 'a')))))).length ≤
      3 := by
  set p : String := String.mk (List.replicate 8000 'a') with hpdef
  have hp : ¬p = "" := by
    rw [hpdef]
    intro h
    have hdata : List.replicate 8000 'a' = [] := congrArg String.data h
    have hlen : (List.replicate 8000 'a').length = 0 := by
      rw [hdata]
      rfl
    rw [List.length_replicate] at hlen
    exact absurd hlen (by norm_num)
  have hest : estimateTokens p = 2000 := by
    rw [hpdef, estimateTokens_replicate_a]
  have hext : extractTurns (List.replicate 50 (Msg.user_prompt p)) =
      List.replicate 50 ⟨Role.user, p⟩ := extractTurns_replicate_user p hp 50
  have htr : truncTokens ⟨Role.user, p⟩ = 1500 := by
    apply truncTokens_of_ge
    rw [show (Turn.mk Role.user p).content = p from rfl, hest]
    norm_num [MAX_SINGLE_TURN_TOKENS]
  have hsel : selectRecentTurns (List.replicate 50 (⟨Role.user, p⟩ : Turn)) =
      [truncateTurn ⟨Role.user, p⟩, truncateTurn ⟨Role.user, p⟩,
       truncateTurn ⟨Role.user, p⟩, truncateTurn ⟨Role.user, p⟩].reverse := by
    unfold selectRecentTurns
    rw [List.reverse_replicate]
    rw [show List.replicate 50 (⟨Role.user, p⟩ : Turn) =
        ⟨Role.user, p⟩ :: ⟨Role.user, p⟩ :: ⟨Role.user, p⟩ :: ⟨Role.user, p⟩ ::
          List.replicate 46 (⟨Role.user, p⟩ : Turn) from rfl]
    rw [selectAux_four _ _ _ _ _ htr htr htr htr]
  refine ⟨hest, ?_, ?_⟩
  · rw [hext, hsel]
    simp
  · rw [hext, hsel]
    simp

/-- C6 (amended): for any history whose last four turns each estimate at
least the 1500-token per-turn cap (e.g. ~2000 token-equivalents), the
builder's window is exactly the 4 most recent turns — each truncated to
the cap — ordered oldest-first with the newest turn last; all older turns
are dropped. -/
theorem contextWindow_keeps_four_newest (front : List Turn) (a b c d : Turn)
    (ha : MAX_SINGLE_TURN_TOKENS ≤ estimateTokens a.content)
    (hb : MAX_SINGLE_TURN_TOKENS ≤ estimateTokens b.content)
    (hc : MAX_SINGLE_TURN_TOKENS ≤ estimateTokens c.content)
    (hd : MAX_SINGLE_TURN_TOKENS ≤ estimateTokens d.content) :
    selectRecentTurns (front ++ [a, b, c, d]) =
      [truncateTurn a, truncateTurn b, truncateTurn c, truncateTurn d] := by
  unfold selectRecentTurns
  have hrev : (front ++ [a, b, c, d]).reverse =
      d :: c :: b :: a :: front.reverse := by simp
  rw [hrev, selectAux_four d c b a front.reverse
      (truncTokens_of_ge d hd) (truncTokens_of_ge c hc)
      (truncTokens_of_ge b hb) (truncTokens_of_ge a ha)]
  rfl

/-- C6 witness: with one old turn followed by four turns of 6000 plain
characters (estimate exactly 1500), the window is those four turns,
oldest-first, the newest last. -/
theorem contextWindow_keeps_four_newest_witness :
    MAX_SINGLE_TURN_TOKENS ≤
      estimateTokens
        (Turn.mk Role.user (String.mk (List.replicate 6000 'a'))).content ∧
    selectRecentTurns
        ([⟨Role.user, "old"⟩] ++
          [⟨Role.user, String.mk (List.replicate 6000 'a')⟩,
           ⟨Role.user, String.mk (List.replicate 6000 'a')⟩,
           ⟨Role.user, String.mk (List.replicate 6000 'a')⟩,
           ⟨Role.user, String.mk (List.replicate 6000 'a')⟩]) =
      [truncateTurn ⟨Role.user, String.mk (List.replicate 6000 'a')⟩,
       truncateTurn ⟨Role.user, String.mk (List.replicate 6000 'a')⟩,
       truncateTurn ⟨Role.user, String.mk (List.replicate 6000 'a')⟩,
       truncateTurn ⟨Role.user, String.mk (List.replicate 6000 'a')⟩] := by
  have hest : MAX_SINGLE_TURN_TOKENS ≤
      estimateTokens
        (Turn.mk Role.user (String.mk (List.replicate 6000 'a'))).content := by
    rw [show (Turn.mk Role.user (String.mk (List.replicate 6000 'a'))).content =
        String.mk (List.replicate 6000 'a') from rfl]
    rw [estimateTokens_replicate_a]
    norm_num [MAX_SINGLE_TURN_TOKENS]
  exact ⟨hest,
    contextWindow_keeps_four_newest [⟨Role.user, "old"⟩] _ _ _ _
      hest hest hest hest⟩

/-- C10: a message append mutates only the `messages` table (one appended
row) and the owning session's `updated_at`: every other field of every
session row — and every row of every other session — is unchanged
(row-for-row, in place).  Consequently, when the append carries a
timestamp strictly newer than every other session's `updated_at`,
`listSessions` (ordered by `updated_at` descending) returns the owning
session first. -/
theorem recordMessage_frame_and_head (st : Store) (msgId : String)
    (now : Nat) (sid : String) (m : Msg)
    (hmem : ∃ s, s ∈ st.sessions ∧ s.id = sid)
    (hfresh : ∀ s ∈ st.sessions, s.id ≠ sid → s.updated_at < now) :
    (st.recordMessage msgId now sid m).messages =
      st.messages ++ [⟨msgId, sid, m, now⟩] ∧
    List.Forall₂
      (fun s t =>
        t.id = s.id ∧ t.title = s.title ∧
        t.claude_session_id = s.claude_session_id ∧ t.status = s.status ∧
        t.cwd = s.cwd ∧ t.last_prompt = s.last_prompt ∧
        t.created_at = s.created_at ∧ (s.id ≠ sid → t = s))
      st.sessions (st.recordMessage msgId now sid m).sessions ∧
    ∃ h, ((st.recordMessage msgId now sid m).listSessions).head? = some h ∧
      h.id = sid := by
  obtain ⟨s0, hs0, hs0id⟩ := hmem
  set f : StoredSession → StoredSession :=
    fun s => if s.id == sid then { s with updated_at := now } else s with hf
  have hsessions : (st.recordMessage msgId now sid m).sessions =
      st.sessions.map f := rfl
  refine ⟨rfl, ?_, ?_⟩
  · rw [hsessions, List.forall₂_map_right_iff]
    refine List.forall₂_same.2 (fun s hs => ?_)
    by_cases hid : s.id = sid
    · have hfs : f s = { s with updated_at := now } := by
        simp [hf, hid]
      rw [hfs]
      exact ⟨rfl, rfl, rfl, rfl, rfl, rfl, rfl, fun hne => absurd hid hne⟩
    · have hfs : f s = s := by
        simp [hf, hid]
      rw [hfs]
      exact ⟨rfl, rfl, rfl, rfl, rfl, rfl, rfl, fun _ => rfl⟩
  · have hub : ∀ x ∈ st.sessions.map f, x.updated_at ≤ now := by
      intro x hx
      obtain ⟨s, hs, rfl⟩ := List.mem_map.1 hx
      by_cases hid : s.id = sid
      · simp [hf, hid]
      · have hfs : f s = s := by simp [hf, hid]
        rw [hfs]
        exact le_of_lt (hfresh s hs hid)
    have hfs0 : f s0 ∈ st.sessions.map f := List.mem_map_of_mem f hs0
    have hfs0u : (f s0).updated_at = now := by simp [hf, hs0id]
    have hperm := List.perm_insertionSort updatedDesc (st.sessions.map f)
    have hsorted := List.sorted_insertionSort updatedDesc (st.sessions.map f)
    rw [show (st.recordMessage msgId now sid m).listSessions =
        List.insertionSort updatedDesc (st.sessions.map f) from rfl]
    cases hsort : List.insertionSort updatedDesc (st.sessions.map f) with
    | nil =>
      exfalso
      have hmem2 := hperm.mem_iff.2 hfs0
      rw [hsort] at hmem2
      exact absurd hmem2 (List.not_mem_nil _)
    | cons hd tl =>
      refine ⟨hd, rfl, ?_⟩
      have hdmem : hd ∈ st.sessions.map f := by
        have hdmem2 : hd ∈ List.insertionSort updatedDesc (st.sessions.map f) := by
          rw [hsort]
          exact List.mem_cons_self _ _
        exact hperm.mem_iff.1 hdmem2
      have hdle : hd.updated_at ≤ now := hub hd hdmem
      have hnow_le : now ≤ hd.updated_at := by
        have hmem2 : f s0 ∈ hd :: tl := by
          rw [← hsort]
          exact hperm.mem_iff.2 hfs0
        rcases List.mem_cons.1 hmem2 with heq | htl
        · rw [← heq, hfs0u]
        · rw [hsort] at hsorted
          have hrel := (List.sorted_cons.1 hsorted).1 (f s0) htl
          rw [← hfs0u]
          exact hrel
      have hdeq : hd.updated_at = now := le_antisymm hdle hnow_le
      obtain ⟨s, hs, hfseq⟩ := List.mem_map.1 hdmem
      by_cases hid : s.id = sid
      · rw [← hfseq]
        simp [hf, hid]
      · have hfs : f s = s := by simp [hf, hid]
        rw [hfs] at hfseq
        exfalso
        have hlt := hfresh s hs hid
        rw [hfseq, hdeq] at hlt
        exact lt_irrefl _ hlt

/-- C10 witness: appending to session "s1" of a two-session store at a
strictly newer timestamp leaves the other row untouched and puts "s1"
first in `listSessions`. -/
theorem recordMessage_frame_and_head_witness :
    (∃ s, s ∈ [(⟨"s1", "a", none, Status.idle, none, none, 1, 10⟩ :
          StoredSession),
        ⟨"s2", "b", none, Status.idle, none, none, 2, 20⟩] ∧ s.id = "s1") ∧
    (∀ s ∈ [(⟨"s1", "a", none, Status.idle, none, none, 1, 10⟩ :
          StoredSession),
        ⟨"s2", "b", none, Status.idle, none, none, 2, 20⟩],
      s.id ≠ "s1" → s.updated_at < 30) ∧
    ((Store.recordMessage
        ⟨[⟨"s1", "a", none, Status.idle, none, none, 1, 10⟩,
          ⟨"s2", "b", none, Status.idle, none, none, 2, 20⟩], [], []⟩
        "m9" 30 "s1" Msg.other).messages =
      [] ++ [⟨"m9", "s1", Msg.other, 30⟩] ∧
    List.Forall₂
      (fun s t =>
        t.id = s.id ∧ t.title = s.title ∧
        t.claude_session_id = s.claude_session_id ∧ t.status = s.status ∧
        t.cwd = s.cwd ∧ t.last_prompt = s.last_prompt ∧
        t.created_at = s.created_at ∧ (s.id ≠ "s1" → t = s))
      [⟨"s1", "a", none, Status.idle, none, none, 1, 10⟩,
       ⟨"s2", "b", none, Status.idle, none, none, 2, 20⟩]
      (Store.recordMessage
        ⟨[⟨"s1", "a", none, Status.idle, none, none, 1, 10⟩,
          ⟨"s2", "b", none, Status.idle, none, none, 2, 20⟩], [], []⟩
        "m9" 30 "s1" Msg.other).sessions ∧
    ∃ h, ((Store.recordMessage
        ⟨[⟨"s1", "a", none, Status.idle, none, none, 1, 10⟩,
          ⟨"s2", "b", none, Status.idle, none, none, 2, 20⟩], [], []⟩
        "m9" 30 "s1" Msg.other).listSessions).head? = some h ∧
      h.id = "s1") :=
  ⟨⟨⟨"s1", "a", none, Status.idle, none, none, 1, 10⟩, by decide, rfl⟩,
    by decide,
    recordMessage_frame_and_head
      ⟨[⟨"s1", "a", none, Status.idle, none, none, 1, 10⟩,
        ⟨"s2", "b", none, Status.idle, none, none, 2, 20⟩], [], []⟩
      "m9" 30 "s1" Msg.other
      ⟨⟨"s1", "a", none, Status.idle, none, none, 1, 10⟩, by decide, rfl⟩
      (by decide)⟩

end ClaudeBench
